import Mathlib

/- Verification development for the Tello-Attention EEG-to-drone pipeline.
   Shallow embedding of src/attention_handler.py and src/main.py.
   Real-valued signal quantities (PSD powers, thresholds) are modelled as
   rationals; Python float division by zero (which yields nan/inf under
   numpy, not an exception) is modelled by the PyFloat type; a Python
   exception escaping a function is modelled by an Option-none result. -/

/-- Threshold configuration of the attention handler:
`self.alpha_threshold = 0.6`, `self.beta_threshold = 20` in
`AttentionHandler.__init__`. -/
structure Cfg where
  alpha_threshold : ℚ
  beta_threshold : ℚ

/-- The default thresholds set in `AttentionHandler.__init__`. -/
def defaultCfg : Cfg := ⟨0.6, 20⟩

/-- The `type` argument of `signal_scaling`: the source compares the string
against `'beta'`; every other value takes the alpha branch. -/
inductive Band
  | alpha
  | beta

/-- The piecewise part of `signal_scaling` shared verbatim by both band
branches (lines 120-123 and 127-130 of attention_handler.py), before the
threshold-guarded overwrite.  `0.5` and `0.25` are exact in ℚ. -/
def signal_scaling_pre (t value : ℚ) : ℚ :=
  if 2 * t < value ∧ value < 4 * t then value * 0.5 + 1
  else if 4 * t < value then value * 0.25 + 1
  else value

/-- `AttentionHandler.signal_scaling` (lines 118-134): the piecewise
compression followed by the threshold-guarded constant overwrite
(`if 50 < self.beta_threshold: value = self.beta_threshold + 1`, and the
analogue with guard `1 <` for the alpha branch). -/
def signal_scaling (cfg : Cfg) (ty : Band) (value : ℚ) : ℚ :=
  match ty with
  | Band.beta =>
      if 50 < cfg.beta_threshold then cfg.beta_threshold + 1
      else signal_scaling_pre cfg.beta_threshold value
  | Band.alpha =>
      if 1 < cfg.alpha_threshold then cfg.alpha_threshold + 1
      else signal_scaling_pre cfg.alpha_threshold value

/-- Threshold used by `signal_scaling` for each band. -/
def bandThreshold (cfg : Cfg) : Band → ℚ
  | Band.alpha => cfg.alpha_threshold
  | Band.beta => cfg.beta_threshold

/-- Which branch of the piecewise scaling an input falls into:
1 = middle branch (2T < v < 4T), 2 = upper branch (4T < v),
0 = the identity fall-through (v ≤ 2T, and also v = 4T exactly). -/
def scaleRegion (t v : ℚ) : ℕ :=
  if 2 * t < v ∧ v < 4 * t then 1 else if 4 * t < v then 2 else 0

/-- The scaling curve as the spec's §4.5 pseudocode orders it, amended so
that the middle branch is strict on both sides (2T < v < 4T), which is what
the source's chained comparison `2*T < value < 4*T` means. -/
def scaleSpecStrict (t v : ℚ) : ℚ :=
  if 4 * t < v then v * 0.25 + 1
  else if 2 * t < v ∧ v < 4 * t then v * 0.5 + 1
  else v

/-- `AttentionHandler.threshold_based_classification` (lines 136-145):
ordered threshold rules producing command codes 1-4. -/
def threshold_based_classification (cfg : Cfg) (alpha_power beta_power : ℚ) : ℤ :=
  if cfg.alpha_threshold < alpha_power then 1
  else if cfg.beta_threshold < beta_power ∧ alpha_power < cfg.alpha_threshold then 2
  else if cfg.alpha_threshold < alpha_power ∧ cfg.beta_threshold < beta_power then 3
  else 4

/-- `np.max` over a list; numpy raises on an empty array, which never occurs
at the call site for a positive window radius (the slice contains the peak
itself), so the empty case is given an arbitrary value. -/
def npMax : List ℚ → ℚ
  | [] => 0
  | q :: l => l.foldl max q

/-- The Python slice `psd[a:b]` for 0 ≤ a, b ≤ len(psd): the values at
indices a, a+1, ..., b-1 (right end exclusive). -/
def pySlice (psd : List ℚ) (a b : ℕ) : List ℚ :=
  (List.range' a (b - a)).map fun j => psd.getD j 0

/-- Modelled after scipy's `_local_maxima_1d` inner loop: starting at
sample `j`, the first index `k ≥ j` with `k ≥ iMax` or `x k ≠ v`
(the end of a plateau of value `v`).  Fuel-based so that it reduces
definitionally; callers pass fuel ≥ iMax, which can never be exhausted. -/
def plateauEnd (x : ℕ → ℚ) (iMax : ℕ) (v : ℚ) : ℕ → ℕ → ℕ
  | 0, j => j
  | fuel + 1, j => if j < iMax ∧ x j = v then plateauEnd x iMax v fuel (j + 1) else j

/-- Modelled after scipy's `_local_maxima_1d` (the implementation of
`scipy.signal.find_peaks` with default arguments): scan `i` from 1 while
`i < iMax`; on a rising edge `x (i-1) < x i`, find the plateau end `ia`;
if `x ia < x i` emit the plateau midpoint `(i + (ia-1)) / 2` and resume
from `ia + 1`, otherwise advance by one. -/
def findPeaksFrom (x : ℕ → ℚ) (iMax : ℕ) : ℕ → ℕ → List ℕ
  | 0, _ => []
  | fuel + 1, i =>
    if i < iMax then
      if x (i - 1) < x i then
        let ia := plateauEnd x iMax (x i) iMax (i + 1)
        if x ia < x i then ((i + (ia - 1)) / 2) :: findPeaksFrom x iMax fuel (ia + 1)
        else findPeaksFrom x iMax fuel (i + 1)
      else findPeaksFrom x iMax fuel (i + 1)
    else []

/-- `find_peaks(psd)` as called on line 95: local maxima of the sequence,
plateau midpoints, interior indices only (1 ≤ i ≤ len-2). -/
def find_peaks (psd : List ℚ) : List ℕ :=
  findPeaksFrom (fun i => psd.getD i 0) (psd.length - 1) (psd.length - 1) 1

/-- `AttentionHandler.non_maximum_suppression` (lines 94-102): keep each
peak whose value equals the maximum of the slice
`psd[max(0, peak - window_size) : min(len(psd), peak + window_size)]`
(note the right end of a Python slice is exclusive). -/
def non_maximum_suppression (psd : List ℚ) (window_size : ℕ) : List ℕ :=
  (find_peaks psd).filter fun peak =>
    decide (psd.getD peak 0 =
      npMax (pySlice psd (peak - window_size) (min psd.length (peak + window_size))))

/-- `n` consecutive Simpson triples starting at index `start`:
Σ dx/3 * (y[s] + 4*y[s+1] + y[s+2]) over s = start, start+2, .... -/
def basicSimpsN (g : ℕ → ℚ) (dx : ℚ) : ℕ → ℕ → ℚ
  | _, 0 => 0
  | start, n + 1 =>
      dx / 3 * (g start + 4 * g (start + 1) + g (start + 2))
        + basicSimpsN g dx (start + 2) n

/-- scipy's `_basic_simpson(y, start, stop, dx)`: Simpson triples at
start, start+2, ... while the triple's first index is < stop. -/
def basicSimps (g : ℕ → ℚ) (dx : ℚ) (start stop : ℕ) : ℚ :=
  basicSimpsN g dx start ((stop - start + 1) / 2)

/-- `scipy.integrate.simps(y, dx=dx)` (default `even='avg'`): composite
Simpson for an odd number of samples; for N = 2 the trapezoid; for even
N ≥ 4 the average of the first/last trapezoid corrections.  `none` models
the IndexError scipy raises on an empty array. -/
def simps (ys : List ℚ) (dx : ℚ) : Option ℚ :=
  if ys.length = 0 then none
  else if ys.length % 2 = 1 then
    some (basicSimps (fun i => ys.getD i 0) dx 0 (ys.length - 2))
  else if ys.length = 2 then
    some (dx / 2 * (ys.getD 0 0 + ys.getD 1 0))
  else
    some ((basicSimps (fun i => ys.getD i 0) dx 0 (ys.length - 3)
        + basicSimps (fun i => ys.getD i 0) dx 1 (ys.length - 2)) / 2
      + (dx / 2 * (ys.getD (ys.length - 1) 0 + ys.getD (ys.length - 2) 0)
        + dx / 2 * (ys.getD 0 0 + ys.getD 1 0)) / 2)

/-- `psd[np.logical_and(freqs >= band[0], freqs <= band[1])]`: the power
values at bins whose frequency lies in [lo, hi] (lines 105, 111). -/
def bandMask (freqs psd : List ℚ) (lo hi : ℚ) : List ℚ :=
  ((freqs.zip psd).filter fun p => decide (lo ≤ p.1 ∧ p.1 ≤ hi)).map Prod.snd

/-- `freq_res = freqs[1] - freqs[0]` (lines 106, 112). -/
def freqRes (freqs : List ℚ) : ℚ := freqs.getD 1 0 - freqs.getD 0 0

/-- `AttentionHandler.calculate_absolute_power` (lines 104-108).  `none`
models the IndexError raised either by `freqs[1]` on a short spectrum or by
`simps` on an empty band selection. -/
def calculate_absolute_power (freqs psd : List ℚ) (lo hi : ℚ) : Option ℚ :=
  if freqs.length < 2 then none
  else simps (bandMask freqs psd lo hi) (freqRes freqs)

/-- A numpy float64 result: a finite rational, or the non-finite values
that float division by zero produces (no exception is raised). -/
inductive PyFloat
  | val (q : ℚ)
  | nan
  | inf
  | ninf
deriving DecidableEq

/-- numpy float64 division: x/0 is nan for x = 0 and ±inf otherwise;
ordinary rational division when the denominator is nonzero. -/
def pyDiv (a b : ℚ) : PyFloat :=
  if b = 0 then (if a = 0 then PyFloat.nan else if 0 < a then PyFloat.inf else PyFloat.ninf)
  else PyFloat.val (a / b)

/-- `AttentionHandler.calculate_relative_power` (lines 110-116):
band power divided by total power, both by `simps` with the same step. -/
def calculate_relative_power (freqs psd : List ℚ) (lo hi : ℚ) : Option PyFloat :=
  if freqs.length < 2 then none
  else
    match simps (bandMask freqs psd lo hi) (freqRes freqs), simps psd (freqRes freqs) with
    | some bp, some tp => some (pyDiv bp tp)
    | _, _ => none

/-- The externally observable calls the worker makes: `clear_buffer`
flushes (`flush`) and the actuator commands of MainApplication.processing_data. -/
inductive Event
  | takeoff
  | land
  | emergencyLand
  | presetA
  | presetB
  | moveForward
  | flush

/-- Modelled from the spec: the actuator driver (tello_controller.py is not
part of src/) — §6 says every actuator call is best-effort and reports
failure by raising an exception.  Each field says whether the corresponding
call raises when invoked. -/
structure Faults where
  takeoff : Bool
  land : Bool
  emergencyLand : Bool
  presetA : Bool
  presetB : Bool
  moveForward : Bool

/-- The fault-free actuator: no call ever raises. -/
def noFaults : Faults := ⟨false, false, false, false, false, false⟩

/-- One iteration of the command dispatch in
`MainApplication.processing_data` (main.py lines 91-119): the events
emitted (a failing call still appears, as the attempt was made), the new
`is_fly` flag, and whether an exception was raised. -/
def dispatch (mode : ℕ) (flt : Faults) (isFly : Bool) (cmd : ℤ) :
    List Event × Bool × Bool :=
  if cmd = 1 then
    if isFly then
      if flt.land then ([Event.flush, Event.land], false, true)
      else ([Event.flush, Event.land, Event.flush], false, false)
    else
      if flt.takeoff then ([Event.takeoff], true, true)
      else ([Event.takeoff, Event.flush], true, false)
  else if cmd = 2 then
    if isFly then
      if mode = 1 then
        if flt.presetA then ([Event.flush, Event.presetA], isFly, true)
        else ([Event.flush, Event.presetA, Event.flush], isFly, false)
      else if mode = 2 then
        if flt.presetB then ([Event.flush, Event.presetB], isFly, true)
        else ([Event.flush, Event.presetB, Event.flush], isFly, false)
      else
        if flt.moveForward then ([Event.flush, Event.moveForward], isFly, true)
        else ([Event.flush, Event.moveForward, Event.flush], isFly, false)
    else ([], isFly, false)
  else ([], isFly, false)

/-- The `for command in processor.process_data()` loop of
`MainApplication.processing_data`: each element of `cmds` is a yielded
command paired with the value of `processor.safe_mode == "on"` read at that
iteration (which overwrites the command with the sentinel -1).  Returns the
event trace and whether an exception escaped the loop. -/
def runLoop (mode : ℕ) (flt : Faults) : Bool → List (ℤ × Bool) → List Event × Bool
  | _, [] => ([], false)
  | isFly, (cmd, safe) :: rest =>
    let d := dispatch mode flt isFly (if safe then -1 else cmd)
    if d.2.2 then (d.1, true)
    else (d.1 ++ (runLoop mode flt d.2.1 rest).1, (runLoop mode flt d.2.1 rest).2)

/-- `MainApplication.processing_data` (main.py lines 80-128): run the loop
(skipped entirely when safe mode was already on), on an escaped exception
run the `except` block's emergency landing, and in all cases run the
`finally` block's landing.  The Bool is whether an exception propagates out
of the whole function: the `finally` land raising, or the `except` block's
emergency landing raising (its exception survives a clean `finally`). -/
def processing_data (mode : ℕ) (flt : Faults) (safeModeOn : Bool)
    (cmds : List (ℤ × Bool)) : List Event × Bool :=
  let r := if safeModeOn then (([] : List Event), false) else runLoop mode flt false cmds
  ((r.1 ++ (if r.2 then [Event.emergencyLand] else [])) ++ [Event.land],
    flt.land || (r.2 && flt.emergencyLand))

/-- Is the event a buffer flush? -/
def isFlush : Event → Bool
  | Event.flush => true
  | _ => false

/-- The claim C3 discipline: every non-flush event must be immediately
preceded and immediately followed by a flush.  `prev` is the event before
the list (none at the start of the trace). -/
def flankOk : Option Event → List Event → Bool
  | _, [] => true
  | prev, e :: rest =>
    (if isFlush e then true
     else
       (match prev with
        | some p => isFlush p
        | none => false)
       && (match rest.head? with
           | some n => isFlush n
           | none => false))
    && flankOk (some e) rest

/-- The flush discipline the dispatch loop actually maintains: land and the
maneuvers are flanked by flushes on both sides, takeoff only followed by
one, and no emergency landing occurs inside the loop. -/
def loopFlankOk : Option Event → List Event → Bool
  | _, [] => true
  | prev, e :: rest =>
    (match e with
     | Event.flush => true
     | Event.takeoff =>
        (match rest.head? with
         | some n => isFlush n
         | none => false)
     | Event.emergencyLand => false
     | _ =>
        (match prev with
         | some p => isFlush p
         | none => false)
        && (match rest.head? with
            | some n => isFlush n
            | none => false))
    && loopFlankOk (some e) rest

/-- One acquisition cycle of `AttentionHandler.process_data` (lines
157-190): whether a chunk arrived (`timestamps` non-empty), the value of
`self.locked` at the cycle, and the two band scores the cycle computes
from the chunk's spectrum (before scaling). -/
structure AcqCycle where
  hasData : Bool
  locked : Bool
  alphaPower : ℚ
  betaPower : ℚ

/-- What one cycle of the generator yields (lines 159-185): with data and
not locked, the classification of the scaled scores; otherwise nothing. -/
def cycleCommands (cfg : Cfg) (c : AcqCycle) : List ℤ :=
  if c.hasData && !c.locked then
    [threshold_based_classification cfg
      (signal_scaling cfg Band.alpha c.alphaPower)
      (signal_scaling cfg Band.beta c.betaPower)]
  else []

/-- `AttentionHandler.process_data` as a whole: the sequence of commands
the generator yields over a run of cycles. -/
def process_data (cfg : Cfg) (cycles : List AcqCycle) : List ℤ :=
  cycles.flatMap (cycleCommands cfg)

/-- The full worker: the generator's commands fed into the dispatch loop of
`MainApplication.processing_data` (safe mode off, as when the session
starts normally). -/
def run_session (cfg : Cfg) (mode : ℕ) (flt : Faults) (cycles : List AcqCycle) :
    List Event × Bool :=
  processing_data mode flt false ((process_data cfg cycles).map fun c => (c, false))

/- ------------------------------------------------------------------ -/
/- Theorems                                                           -/
/- ------------------------------------------------------------------ -/

/-- C1: `threshold_based_classification` is a total function of the two
scores returning a code in {1,2,3,4}; whenever `alpha_power` exceeds the
alpha threshold the result is 1 regardless of `beta_power` (rule-1
precedence), and code 3 is never returned. -/
theorem c1_classifier_total_rule1 (cfg : Cfg) (a b : ℚ) :
    (threshold_based_classification cfg a b = 1 ∨
     threshold_based_classification cfg a b = 2 ∨
     threshold_based_classification cfg a b = 3 ∨
     threshold_based_classification cfg a b = 4) ∧
    (cfg.alpha_threshold < a → threshold_based_classification cfg a b = 1) ∧
    threshold_based_classification cfg a b ≠ 3 := by
  unfold threshold_based_classification
  split_ifs with h1 h2 h3
  · exact ⟨Or.inl rfl, fun _ => rfl, by norm_num⟩
  · exact ⟨Or.inr (Or.inl rfl), fun h => absurd h h1, by norm_num⟩
  · exact absurd h3.1 h1
  · exact ⟨Or.inr (Or.inr (Or.inr rfl)), fun h => absurd h h1, by norm_num⟩

/-- Witness for C1: at the default thresholds, alpha 0.7 > 0.6 yields
code 1 whatever beta is. -/
theorem c1_classifier_witness :
    threshold_based_classification defaultCfg 0.7 25 = 1 :=
  (c1_classifier_total_rule1 defaultCfg 0.7 25).2.1 (by norm_num [defaultCfg])

/-- C5 counterexample: at the beta threshold T = 20 and v = 80 = 4T the
source returns v unchanged (the chained comparison 2T < v < 4T is strict),
not 0.5 * v + 1 = 41 as the claim states for v = 4T. -/
theorem c5_boundary_counterexample :
    signal_scaling_pre 20 80 ≠ 80 * 0.5 + 1 := by
  norm_num [signal_scaling_pre]

/-- C5 (amended): before the clamp, the scaling returns 0.25v+1 when
v > 4T, 0.5v+1 when 2T < v < 4T strictly, and v unchanged otherwise —
in particular v = 4T exactly falls through unchanged. -/
theorem c5_scaling_piecewise_amended (t v : ℚ) :
    signal_scaling_pre t v = scaleSpecStrict t v := by
  unfold signal_scaling_pre scaleSpecStrict
  split_ifs with h1 h2 h3 <;> first
    | rfl
    | (exact absurd h2 (by push_neg; linarith [h1.1, h1.2]))

/-- C6 counterexample: with the default beta threshold 20 the scaling is
not monotone: 40 ≤ 41 but f(40) = 40 > f(41) = 21.5. -/
theorem c6_monotone_counterexample :
    (40 : ℚ) ≤ 41 ∧
    ¬ (signal_scaling defaultCfg Band.beta 40 ≤ signal_scaling defaultCfg Band.beta 41) := by
  constructor
  · norm_num
  · norm_num [signal_scaling, signal_scaling_pre, defaultCfg]

/-- Monotonicity of the piecewise part within one branch region. -/
theorem signal_scaling_pre_mono (t v1 v2 : ℚ) (h12 : v1 ≤ v2)
    (hr : scaleRegion t v1 = scaleRegion t v2) :
    signal_scaling_pre t v1 ≤ signal_scaling_pre t v2 := by
  unfold scaleRegion at hr
  unfold signal_scaling_pre
  split_ifs at hr ⊢ <;> linarith

/-- C6 (amended): `signal_scaling` is monotone non-decreasing on each
branch of its piecewise definition (inputs falling in the same region
relative to 2T and 4T), though not globally. -/
theorem c6_piecewise_monotone_amended (cfg : Cfg) (b : Band) (v1 v2 : ℚ)
    (h12 : v1 ≤ v2)
    (hr : scaleRegion (bandThreshold cfg b) v1 = scaleRegion (bandThreshold cfg b) v2) :
    signal_scaling cfg b v1 ≤ signal_scaling cfg b v2 := by
  cases b <;> simp only [bandThreshold] at hr <;> simp only [signal_scaling] <;>
    split_ifs <;> first
      | exact le_refl _
      | exact signal_scaling_pre_mono _ _ _ h12 hr

/-- Witness for C6 (amended): 41 and 42 lie in the same (middle) region
for the default beta threshold, and scaling is ordered there. -/
theorem c6_monotone_witness :
    signal_scaling defaultCfg Band.beta 41 ≤ signal_scaling defaultCfg Band.beta 42 :=
  c6_piecewise_monotone_amended defaultCfg Band.beta 41 42 (by norm_num)
    (by norm_num [scaleRegion, bandThreshold, defaultCfg])

/-- C10: when the guard holds (beta threshold > 50, or alpha threshold
> 1), `signal_scaling` returns the constant threshold + 1 for every input
value: an unconditional overwrite of the scaled value. -/
theorem c10_clamp_overwrite (cfg : Cfg) (v : ℚ) :
    (50 < cfg.beta_threshold →
      signal_scaling cfg Band.beta v = cfg.beta_threshold + 1) ∧
    (1 < cfg.alpha_threshold →
      signal_scaling cfg Band.alpha v = cfg.alpha_threshold + 1) := by
  constructor <;> intro h <;> simp only [signal_scaling] <;> rw [if_pos h]

/-- Witness for C10: with thresholds (alpha 2, beta 60) both guards hold
and the input 0, far below either threshold, is overwritten to T + 1. -/
theorem c10_clamp_witness :
    signal_scaling ⟨2, 60⟩ Band.beta 0 = 61 ∧ signal_scaling ⟨2, 60⟩ Band.alpha 0 = 3 := by
  constructor
  · have h := (c10_clamp_overwrite ⟨2, 60⟩ 0).1 (by norm_num)
    rw [h]; norm_num
  · have h := (c10_clamp_overwrite ⟨2, 60⟩ 0).2 (by norm_num)
    rw [h]; norm_num

/-- C2 counterexample: when the landing call itself raises, the exception
propagates out of the `finally` block: with a faulty `land`, even a run
with no cycles ends with an exception escaping the worker, so teardown does
raise outward. -/
theorem c2_teardown_counterexample :
    (processing_data 1 ⟨false, true, false, false, false, false⟩ false []).2 = true := by
  decide

/-- C2 (amended): on every exit path — normal termination, an exception
during a cycle, or safe-mode stop — a landing attempt is the last event
before the worker terminates; but teardown is not exception-guarded: an
exception propagates outward exactly when the `finally` landing or the
`except` block's emergency landing itself fails, never otherwise. -/
theorem c2_landing_always_attempted (mode : ℕ) (flt : Faults) (s : Bool)
    (cmds : List (ℤ × Bool)) :
    (processing_data mode flt s cmds).1.getLast? = some Event.land ∧
    ((processing_data mode flt s cmds).2 = true →
      flt.land = true ∨ flt.emergencyLand = true) := by
  constructor
  · show ((_ ++ _) ++ [Event.land]).getLast? = some Event.land
    exact List.getLast?_concat _
  · intro h
    simp only [processing_data, Bool.or_eq_true, Bool.and_eq_true] at h
    rcases h with h | ⟨_, h⟩
    · exact Or.inl h
    · exact Or.inr h

/-- Witness for C2 (amended): with a failing `land` actuator, the escaped
exception indeed traces back to a failed landing call. -/
theorem c2_landing_witness :
    Faults.land ⟨false, true, false, false, false, false⟩ = true ∨
    Faults.emergencyLand ⟨false, true, false, false, false, false⟩ = true :=
  (c2_landing_always_attempted 1 ⟨false, true, false, false, false, false⟩ false []).2
    (by decide)

/-- C3 counterexample: in the run where the grounded worker receives one
code 1, the takeoff is the first event of the whole trace — it is not
preceded by a buffer flush (and the teardown landing that follows is not
flanked by flushes either), so the claimed both-sides flush discipline
fails. -/
theorem c3_flush_counterexample :
    flankOk none (processing_data 1 noFaults false [(1, false)]).1 = false := by
  decide

/-- C3 (amended): in a fault-free run of the dispatch loop, every land,
preset-maneuver and move call is immediately preceded and followed by a
buffer flush, and every takeoff is immediately followed by one — but
takeoff is not preceded by a flush, and the teardown landing calls sit
outside the discipline. -/
theorem c3_flush_discipline_amended (mode : ℕ) (cmds : List (ℤ × Bool)) :
    ∀ (isFly : Bool) (prev : Option Event),
    loopFlankOk prev (runLoop mode noFaults isFly cmds).1 = true := by
  induction cmds with
  | nil => intro isFly prev; rfl
  | cons p rest ih =>
    intro isFly prev
    rcases p with ⟨cmd, safe⟩
    simp only [runLoop]
    by_cases h1 : (if safe then (-1 : ℤ) else cmd) = 1
    · cases isFly <;>
        simp [dispatch, h1, noFaults, loopFlankOk, isFlush] <;> exact ih _ _
    · by_cases h2 : (if safe then (-1 : ℤ) else cmd) = 2
      · cases isFly
        · simp [dispatch, h1, h2, noFaults, loopFlankOk, isFlush] <;> exact ih _ _
        · by_cases hm1 : mode = 1
          · subst hm1
            simp [dispatch, h1, h2, noFaults, loopFlankOk, isFlush] <;> exact ih _ _
          · by_cases hm2 : mode = 2
            · subst hm2
              simp [dispatch, h1, h2, noFaults, loopFlankOk, isFlush] <;> exact ih _ _
            · simp [dispatch, h1, h2, hm1, hm2, noFaults, loopFlankOk, isFlush] <;>
                exact ih _ _
      · simp [dispatch, h1, h2, noFaults, loopFlankOk, isFlush] <;> exact ih _ _

/-- C4 counterexample: a cycle that arrives with `locked = true` yields
nothing at all — in particular no sentinel abort code −1 is emitted in its
place (the −1 sentinel in the consumer is tied to `safe_mode`, a different
flag). -/
theorem c4_locked_counterexample :
    process_data defaultCfg [⟨true, true, 1, 30⟩] = [] ∧
    (-1 : ℤ) ∉ process_data defaultCfg [⟨true, true, 1, 30⟩] := by
  constructor
  · decide
  · decide

/-- C4 (amended): while `locked` is true command emission is entirely
suppressed — the generator yields nothing, not a sentinel — and therefore
cycles arriving after `locked` becomes (and stays) true contribute no
actuator calls at all: the session trace is unchanged, leaving only the
guaranteed teardown landing. -/
theorem c4_locked_suppression_amended (cfg : Cfg) (mode : ℕ) (flt : Faults)
    (c1 c2 : List AcqCycle) (h : ∀ c ∈ c2, c.locked = true) :
    process_data cfg c2 = [] ∧
    run_session cfg mode flt (c1 ++ c2) = run_session cfg mode flt c1 := by
  have hpd : process_data cfg c2 = [] := by
    unfold process_data
    induction c2 with
    | nil => rfl
    | cons c cs ih =>
      have hc : c.locked = true := h c (by simp)
      have hcs : ∀ x ∈ cs, x.locked = true := fun x hx => h x (by simp [hx])
      simp [cycleCommands, hc, ih hcs]
  refine ⟨hpd, ?_⟩
  unfold run_session
  have : process_data cfg (c1 ++ c2) = process_data cfg c1 := by
    unfold process_data at hpd ⊢
    rw [List.flatMap_append, hpd, List.append_nil]
  rw [this]

/-- Witness for C4 (amended): one locked cycle appended to the empty run
changes nothing — the trace is exactly that of the empty run. -/
theorem c4_locked_witness :
    run_session defaultCfg 1 noFaults ([] ++ [⟨true, true, 1, 30⟩]) =
      run_session defaultCfg 1 noFaults [] :=
  (c4_locked_suppression_amended defaultCfg 1 noFaults [] [⟨true, true, 1, 30⟩]
    (by intro c hc; simp at hc; rw [hc])).2

/-- The initial value is below a foldl over max. -/
theorem le_foldl_max_init (l : List ℚ) : ∀ a : ℚ, a ≤ l.foldl max a := by
  induction l with
  | nil => intro a; exact le_refl a
  | cons b l ih => intro a; exact le_trans (le_max_left a b) (ih (max a b))

/-- Every member of the list is below a foldl over max. -/
theorem le_foldl_max_mem (l : List ℚ) : ∀ a y : ℚ, y ∈ l → y ≤ l.foldl max a := by
  induction l with
  | nil => intro a y hy; simp at hy
  | cons b l ih =>
    intro a y hy
    rcases List.mem_cons.1 hy with h | h
    · subst h
      exact le_trans (le_max_right a y) (le_foldl_max_init l (max a y))
    · exact ih (max a b) y h

/-- `npMax` dominates every member of its list. -/
theorem le_npMax (l : List ℚ) (y : ℚ) (hy : y ∈ l) : y ≤ npMax l := by
  cases l with
  | nil => simp at hy
  | cons q t =>
    rcases List.mem_cons.1 hy with h | h
    · subst h; exact le_foldl_max_init t y
    · exact le_foldl_max_mem t q y h

/-- Values at in-window indices belong to the Python slice. -/
theorem getD_mem_pySlice (psd : List ℚ) (a b j : ℕ) (h1 : a ≤ j) (h2 : j < b) :
    psd.getD j 0 ∈ pySlice psd a b := by
  unfold pySlice
  refine List.mem_map.2 ⟨j, ?_, rfl⟩
  have hab : a ≤ b := le_of_lt (lt_of_le_of_lt h1 h2)
  refine List.mem_range'_1.2 ⟨h1, ?_⟩
  omega

/-- `plateauEnd` never moves left. -/
theorem plateauEnd_ge (x : ℕ → ℚ) (iMax : ℕ) (v : ℚ) :
    ∀ fuel j, j ≤ plateauEnd x iMax v fuel j := by
  intro fuel
  induction fuel with
  | zero => intro j; exact le_refl j
  | succ n ih =>
    intro j
    unfold plateauEnd
    split_ifs with h
    · exact le_trans (Nat.le_succ j) (ih (j + 1))
    · exact le_refl j

/-- Every index emitted by `findPeaksFrom` is at least the scan start. -/
theorem findPeaksFrom_mem_ge (x : ℕ → ℚ) (iMax : ℕ) :
    ∀ fuel i m, m ∈ findPeaksFrom x iMax fuel i → i ≤ m := by
  intro fuel
  induction fuel with
  | zero => intro i m hm; simp [findPeaksFrom] at hm
  | succ n ih =>
    intro i m hm
    simp only [findPeaksFrom] at hm
    split_ifs at hm with h1 h2 h3
    · have hia : i + 1 ≤ plateauEnd x iMax (x i) iMax (i + 1) :=
        plateauEnd_ge x iMax (x i) iMax (i + 1)
      rcases List.mem_cons.1 hm with h | h
      · omega
      · have := ih _ m h; omega
    · have := ih _ m hm; omega
    · have := ih _ m hm; omega
    · simp at hm

/-- The peak indices produced by `findPeaksFrom` are strictly increasing. -/
theorem findPeaksFrom_chain (x : ℕ → ℚ) (iMax : ℕ) :
    ∀ fuel i, List.Chain' (fun a b => a < b) (findPeaksFrom x iMax fuel i) := by
  intro fuel
  induction fuel with
  | zero => intro i; simp [findPeaksFrom]
  | succ n ih =>
    intro i
    simp only [findPeaksFrom]
    split_ifs with h1 h2 h3
    · have hia : i + 1 ≤ plateauEnd x iMax (x i) iMax (i + 1) :=
        plateauEnd_ge x iMax (x i) iMax (i + 1)
      refine List.chain'_cons'.2 ⟨?_, ih _⟩
      intro y hy
      have hmem : y ∈ findPeaksFrom x iMax n (plateauEnd x iMax (x i) iMax (i + 1) + 1) :=
        List.mem_of_mem_head? hy
      have := findPeaksFrom_mem_ge x iMax n _ y hmem
      omega
    · exact ih _
    · exact ih _
    · simp

/-- C7 counterexample: on the spectrum [0,1,0,0,0,0,5,0] with radius 5
the index 1 is selected even though index 6 lies inside the claimed window
[1-5, 1+5] clipped to bounds and carries the larger power 5 > 1: the
source's slice `psd[start:end]` excludes its right endpoint, so the claimed
window [i-r, i+r] is wrong at i+r. -/
theorem c7_window_counterexample :
    1 ∈ non_maximum_suppression [0, 1, 0, 0, 0, 0, 5, 0] 5 ∧
    (1 : ℕ) - 5 ≤ 6 ∧ 6 ≤ 1 + 5 ∧ 6 < ([0, 1, 0, 0, 0, 0, 5, 0] : List ℚ).length ∧
    ¬ (([0, 1, 0, 0, 0, 0, 5, 0] : List ℚ).getD 6 0 ≤
        ([0, 1, 0, 0, 0, 0, 5, 0] : List ℚ).getD 1 0) := by
  refine ⟨by decide, by decide, by decide, by decide, by decide⟩

/-- C7 (amended): every index returned by `non_maximum_suppression` is a
local peak whose power is maximal over the half-open window
[i-r, min(len, i+r)) — the right endpoint i+r itself is excluded by the
Python slice — and the returned indices are strictly increasing. -/
theorem c7_nms_amended (psd : List ℚ) (r : ℕ) :
    List.Chain' (fun a b => a < b) (non_maximum_suppression psd r) ∧
    ∀ i ∈ non_maximum_suppression psd r,
      i ∈ find_peaks psd ∧
      ∀ j, i - r ≤ j → j < min psd.length (i + r) →
        psd.getD j 0 ≤ psd.getD i 0 := by
  constructor
  · exact (findPeaksFrom_chain _ _ _ _).sublist (List.filter_sublist _)
  · intro i hi
    have hmem := List.mem_filter.1 hi
    refine ⟨hmem.1, ?_⟩
    intro j hj1 hj2
    have hpred := of_decide_eq_true hmem.2
    rw [hpred]
    exact le_npMax _ _ (getD_mem_pySlice psd (i - r) (min psd.length (i + r)) j hj1 hj2)

/-- Witness for C7 (amended): on [0,1,0] with radius 1 the selected peak 1
dominates index 0 of its window. -/
theorem c7_nms_witness :
    ([0, 1, 0] : List ℚ).getD 0 0 ≤ ([0, 1, 0] : List ℚ).getD 1 0 :=
  ((c7_nms_amended [0, 1, 0] 1).2 1 (by decide)).2 0 (by decide) (by decide)

/-- `getD` with default 0 on a list of non-negative values is non-negative. -/
theorem getD_nonneg (ys : List ℚ) (h : ∀ q ∈ ys, 0 ≤ q) (i : ℕ) :
    0 ≤ ys.getD i 0 := by
  rcases lt_or_le i ys.length with hi | hi
  · rw [ys.getD_eq_getElem 0 hi]
    exact h _ (ys.getElem_mem hi)
  · rw [List.getD_eq_default _ _ hi]

/-- Simpson triples of a non-negative integrand with non-negative step are
non-negative. -/
theorem basicSimpsN_nonneg (g : ℕ → ℚ) (dx : ℚ) (hg : ∀ i, 0 ≤ g i)
    (hdx : 0 ≤ dx) : ∀ n start, 0 ≤ basicSimpsN g dx start n := by
  intro n
  induction n with
  | zero => intro start; exact le_refl 0
  | succ m ih =>
    intro start
    unfold basicSimpsN
    have h1 := hg start
    have h2 := hg (start + 1)
    have h3 := hg (start + 2)
    have := ih (start + 2)
    have hdx3 : 0 ≤ dx / 3 := by linarith
    nlinarith

/-- `simps` of a non-negative sample list with non-negative step is
non-negative whenever it returns a value. -/
theorem simps_nonneg (ys : List ℚ) (dx : ℚ) (h : ∀ q ∈ ys, 0 ≤ q)
    (hdx : 0 ≤ dx) : ∀ v, simps ys dx = some v → 0 ≤ v := by
  intro v hv
  have hg : ∀ i, 0 ≤ ys.getD i 0 := getD_nonneg ys h
  have hb : ∀ start stop, 0 ≤ basicSimps (fun i => ys.getD i 0) dx start stop :=
    fun start stop => basicSimpsN_nonneg _ dx hg hdx _ _
  unfold simps at hv
  split_ifs at hv <;> injection hv with hv <;> subst hv
  · exact hb 0 (ys.length - 2)
  · have := hg 0; have := hg 1
    have hdx2 : 0 ≤ dx / 2 := by linarith
    nlinarith
  · have hb1 := hb 0 (ys.length - 3)
    have hb2 := hb 1 (ys.length - 2)
    have h1 := hg 0
    have h2 := hg 1
    have h3 := hg (ys.length - 1)
    have h4 := hg (ys.length - 2)
    have hdx2 : 0 ≤ dx / 2 := by linarith
    nlinarith

/-- Every value selected by the band mask is a value of the psd list. -/
theorem bandMask_subset (freqs psd : List ℚ) (lo hi : ℚ) :
    ∀ q ∈ bandMask freqs psd lo hi, q ∈ psd := by
  intro q hq
  unfold bandMask at hq
  rcases List.mem_map.1 hq with ⟨p, hp, hq⟩
  subst hq
  exact (List.of_mem_zip (List.mem_of_mem_filter hp)).2

/-- When the band bounds cover every frequency bin (and the spectrum is
well-formed: one power per bin), the mask selects the whole psd. -/
theorem bandMask_full (freqs psd : List ℚ) (lo hi : ℚ)
    (hlen : psd.length = freqs.length)
    (hcov : ∀ f ∈ freqs, lo ≤ f ∧ f ≤ hi) :
    bandMask freqs psd lo hi = psd := by
  unfold bandMask
  have hfil : (freqs.zip psd).filter (fun p => decide (lo ≤ p.1 ∧ p.1 ≤ hi))
      = freqs.zip psd := by
    refine List.filter_eq_self.2 ?_
    intro p hp
    exact decide_eq_true (hcov p.1 (List.of_mem_zip hp).1)
  rw [hfil]
  exact List.map_snd_zip freqs psd (le_of_eq hlen)

/-- C8 counterexample: on the all-zero spectrum over bins [0,1,2,3] with
band [1,2], total power integrates to zero, yet the relative-power
computation does not fail: the float division 0/0 silently returns nan
and the function returns it. -/
theorem c8_zero_total_counterexample :
    calculate_relative_power [0, 1, 2, 3] [0, 0, 0, 0] 1 2 = some PyFloat.nan ∧
    calculate_relative_power [0, 1, 2, 3] [0, 0, 0, 0] 1 2 ≠ none := by
  have hval : calculate_relative_power [0, 1, 2, 3] [0, 0, 0, 0] 1 2
      = some PyFloat.nan := by
    have hmask : bandMask [0, 1, 2, 3] [0, 0, 0, 0] 1 2 = [0, 0] := by decide
    have hdx : freqRes [0, 1, 2, 3] = 1 := by norm_num [freqRes]
    have h1 : simps [(0 : ℚ), 0] 1 = some 0 := by
      norm_num [simps, basicSimps, basicSimpsN]
    have h2 : simps [(0 : ℚ), 0, 0, 0] 1 = some 0 := by
      norm_num [simps, basicSimps, basicSimpsN]
    unfold calculate_relative_power
    rw [if_neg (by norm_num), hmask, hdx, h1, h2]
    norm_num [pyDiv]
  exact ⟨hval, by rw [hval]; exact Option.some_ne_none _⟩

/-- C8 (amended): when no bins fall in the requested band both power
functions do fail (the model's `none`, an IndexError from integrating an
empty selection — there is no dedicated DegenerateBandError type); but
when total power integrates to zero the relative-power computation does
NOT fail: it returns the non-finite float that dividing the band power by
zero produces (nan or ±inf), and execution continues. -/
theorem c8_error_behavior_amended (freqs psd : List ℚ) (lo hi : ℚ) :
    (bandMask freqs psd lo hi = [] →
      calculate_absolute_power freqs psd lo hi = none ∧
      calculate_relative_power freqs psd lo hi = none) ∧
    (∀ bp, 2 ≤ freqs.length →
      simps (bandMask freqs psd lo hi) (freqRes freqs) = some bp →
      simps psd (freqRes freqs) = some 0 →
      calculate_relative_power freqs psd lo hi = some (pyDiv bp 0) ∧
      (pyDiv bp 0 = PyFloat.nan ∨ pyDiv bp 0 = PyFloat.inf ∨
        pyDiv bp 0 = PyFloat.ninf)) := by
  constructor
  · intro hmask
    have hsimps : simps (bandMask freqs psd lo hi) (freqRes freqs) = none := by
      rw [hmask]; rfl
    constructor
    · unfold calculate_absolute_power
      split_ifs with h
      · rfl
      · exact hsimps
    · unfold calculate_relative_power
      split_ifs with h
      · rfl
      · rw [hsimps]
  · intro bp hlen hbp htot
    have hnot : ¬ freqs.length < 2 := by omega
    constructor
    · unfold calculate_relative_power
      rw [if_neg hnot, hbp, htot]
    · unfold pyDiv
      rw [if_pos rfl]
      split_ifs with h1 h2
      · exact Or.inl rfl
      · exact Or.inr (Or.inl rfl)
      · exact Or.inr (Or.inr rfl)

/-- Witness for C8 (amended): the empty band [5,6] over bins [0,1] makes
the absolute-power computation fail, and the all-zero spectrum makes the
relative-power computation return nan rather than fail. -/
theorem c8_error_witness :
    calculate_absolute_power [0, 1] [1, 1] 5 6 = none ∧
    calculate_relative_power [0, 1, 2, 3] [0, 0, 0, 0] 1 2 = some (pyDiv 0 0) := by
  have hmask : bandMask [0, 1, 2, 3] [0, 0, 0, 0] 1 2 = [0, 0] := by decide
  have hdx : freqRes [0, 1, 2, 3] = 1 := by norm_num [freqRes]
  have h1 : simps (bandMask [0, 1, 2, 3] [0, 0, 0, 0] 1 2) (freqRes [0, 1, 2, 3])
      = some 0 := by
    rw [hmask, hdx]; norm_num [simps, basicSimps, basicSimpsN]
  have h2 : simps [(0 : ℚ), 0, 0, 0] (freqRes [0, 1, 2, 3]) = some 0 := by
    rw [hdx]; norm_num [simps, basicSimps, basicSimpsN]
  constructor
  · exact ((c8_error_behavior_amended [0, 1] [1, 1] 5 6).1 (by decide)).1
  · exact ((c8_error_behavior_amended [0, 1, 2, 3] [0, 0, 0, 0] 1 2).2 0
      (by norm_num) h1 h2).1

/-- C9 counterexample: the all-zero spectrum has non-negative power values
and the band [0,2] covers every bin, yet relative power is nan (0/0), not
1: the claim needs nonzero total power. -/
theorem c9_zero_spectrum_counterexample :
    calculate_relative_power [0, 1, 2] [0, 0, 0] 0 2 = some PyFloat.nan ∧
    PyFloat.nan ≠ PyFloat.val 1 := by
  have hmask : bandMask [0, 1, 2] [0, 0, 0] 0 2 = [0, 0, 0] := by decide
  have hdx : freqRes [0, 1, 2] = 1 := by norm_num [freqRes]
  have h1 : simps [(0 : ℚ), 0, 0] 1 = some 0 := by
    norm_num [simps, basicSimps, basicSimpsN]
  constructor
  · unfold calculate_relative_power
    rw [if_neg (by norm_num), hmask, hdx, h1]
    norm_num [pyDiv]
  · decide

/-- C9 (amended): for a well-formed spectrum with non-negative power values
(bins in non-decreasing order, one power per bin), absolute band power is
non-negative whenever it is returned; and relative power is exactly 1 when
the band bounds cover every frequency bin, provided total power is nonzero
(an all-zero spectrum gives nan instead). -/
theorem c9_power_amended (freqs psd : List ℚ) (lo hi : ℚ)
    (hpos : ∀ q ∈ psd, 0 ≤ q)
    (hdx : freqs.getD 0 0 ≤ freqs.getD 1 0) :
    (∀ v, calculate_absolute_power freqs psd lo hi = some v → 0 ≤ v) ∧
    (∀ t, psd.length = freqs.length →
      (∀ f ∈ freqs, lo ≤ f ∧ f ≤ hi) →
      2 ≤ freqs.length →
      simps psd (freqRes freqs) = some t → t ≠ 0 →
      calculate_relative_power freqs psd lo hi = some (PyFloat.val 1)) := by
  have hdx0 : 0 ≤ freqRes freqs := by
    unfold freqRes; linarith
  constructor
  · intro v hv
    unfold calculate_absolute_power at hv
    split_ifs at hv
    exact simps_nonneg _ _ (fun q hq => hpos q (bandMask_subset freqs psd lo hi q hq))
      hdx0 v hv
  · intro t hlen hcov hlen2 htot htne
    have hnot : ¬ freqs.length < 2 := by omega
    unfold calculate_relative_power
    rw [if_neg hnot, bandMask_full freqs psd lo hi hlen hcov, htot]
    show some (pyDiv t t) = some (PyFloat.val 1)
    have : pyDiv t t = PyFloat.val 1 := by
      unfold pyDiv
      rw [if_neg htne, div_self htne]
    rw [this]

/-- Witness for C9 (amended): over bins [0,1] with powers [2,2] the
absolute power of the full band is non-negative and the relative power of
the covering band [0,1] is exactly 1. -/
theorem c9_power_witness :
    calculate_relative_power [0, 1] [2, 2] 0 1 = some (PyFloat.val 1) := by
  have ht : simps [(2 : ℚ), 2] (freqRes [0, 1]) = some 2 := by
    norm_num [simps, basicSimps, basicSimpsN, freqRes]
  exact (c9_power_amended [0, 1] [2, 2] 0 1 (by decide) (by decide)).2 2
    (by decide) (by decide) (by decide) ht (by norm_num)
